import Mathlib

/-!
# Damage-tracking render loop and framebuffer utilities

A shallow embedding of `example/example_webgl.cpp` (Rect, MovingBox, loop) and of
`src/nanovg_gl_utils.h` (nvgluCreateFramebuffer, nvgluDeleteFramebuffer).

Modelling conventions

* The render loop is embedded twice as far as arithmetic goes.  `Rect`, `MovingBox` and
  `loop` carry exact rationals: they serve the statements on the structure of a tick (what
  is pushed, what is painted), which do not depend on rounding.  `F32`, `MovingBox32` and
  `MovingBox32.update` are the same code in IEEE binary32 arithmetic (round to nearest, ties
  to even, subnormals, overflow to infinity, NaN); they serve the statements on the values
  `update` computes.  The sign of zero is not tracked.
* `std::min` and `std::max` are written out the way the standard library defines them.
* The GL driver and the NanoVG image store are an explicit state (`GLState`) holding the
  live object names and the current bindings; what the driver answers during one call
  (generated names, completeness status, the address returned by malloc) is a `Driver` record.
* Heap structs live in an association list keyed by address; address 0 is NULL.  A call
  that reads through an address that is not allocated has undefined behaviour in C; the
  embedding gives such a call no result state (`none`).
-/

namespace NanoVG

/-! ## example_webgl.cpp -/

/-- Axis-aligned rectangle `struct Rect`. -/
structure Rect where
  x : ℚ
  y : ℚ
  w : ℚ
  h : ℚ
  deriving DecidableEq, Repr

/-- The method `Rect::intersects`. -/
def Rect.intersects (r other : Rect) : Bool :=
  !(decide (r.x + r.w < other.x) || decide (other.x + other.w < r.x) ||
    decide (r.y + r.h < other.y) || decide (other.y + other.h < r.y))

/-- The colour value `NVGcolor` (four float channels). -/
structure NVGcolor where
  r : ℚ
  g : ℚ
  b : ℚ
  a : ℚ
  deriving DecidableEq, Repr

/-- The library function `std::min(a, b)`, which is `(b < a) ? b : a`. -/
def stdMin (a b : ℚ) : ℚ := if b < a then b else a

/-- The library function `std::max(a, b)`, which is `(a < b) ? b : a`. -/
def stdMax (a b : ℚ) : ℚ := if a < b then b else a

/-- The record `struct MovingBox`. -/
structure MovingBox where
  x : ℚ
  y : ℚ
  w : ℚ
  h : ℚ
  dx : ℚ
  dy : ℚ
  color : NVGcolor
  oldRect : Rect
  deriving DecidableEq, Repr

/-- The method `MovingBox::getRect`. -/
def MovingBox.getRect (b : MovingBox) : Rect := ⟨b.x, b.y, b.w, b.h⟩

/-- The constructor `MovingBox::MovingBox`: the fields are set, then `oldRect = getRect()`. -/
def MovingBox.new (x y w h dx dy : ℚ) (c : NVGcolor) : MovingBox :=
  { x := x, y := y, w := w, h := h, dx := dx, dy := dy, color := c, oldRect := ⟨x, y, w, h⟩ }

/-- The method `MovingBox::update(maxw, maxh)`, statement by statement. -/
def MovingBox.update (b : MovingBox) (maxw maxh : ℚ) : MovingBox :=
  let oldRect := b.getRect
  let x := b.x + b.dx
  let y := b.y + b.dy
  let dx := if x < 0 ∨ x + b.w > maxw then -b.dx else b.dx
  let dy := if y < 0 ∨ y + b.h > maxh then -b.dy else b.dy
  let x := stdMax 0 (stdMin x (maxw - b.w))
  let y := stdMax 0 (stdMin y (maxh - b.h))
  { b with x := x, y := y, dx := dx, dy := dy, oldRect := oldRect }

/-- The application state `struct NanoVGExample` (the context handles carry no data here). -/
structure NanoVGExample where
  boxes : List MovingBox
  dirtyRects : List Rect
  winWidth : Int
  winHeight : Int
  deriving DecidableEq, Repr

/-- The C conversion of a float to `GLint` or `GLsizei`: truncation toward zero. -/
def toGLint (q : ℚ) : Int := if 0 ≤ q then ⌊q⌋ else ⌈q⌉

/-- The arguments of the `glScissor` call issued by one `clearRectGL`. -/
structure Scissor where
  x : Int
  y : Int
  width : Int
  height : Int
  deriving DecidableEq, Repr

/-- The function `clearRectGL`: the scissor box it clears (y flipped against `winH`). -/
def clearRectGL (x y w h : ℚ) (winH : Int) : Scissor :=
  ⟨toGLint x, toGLint ((winH : ℚ) - y - h), toGLint w, toGLint h⟩

/-- First loop of `loop`: every box pushes its `oldRect`. -/
def pushOldRects : List MovingBox → List Rect → List Rect
  | [], dirty => dirty
  | b :: bs, dirty => pushOldRects bs (dirty ++ [b.oldRect])

/-- Second loop of `loop`: every box is updated in place and pushes its new rectangle. -/
def updateBoxes (maxw maxh : ℚ) : List MovingBox → List Rect → List MovingBox × List Rect
  | [], dirty => ([], dirty)
  | b :: bs, dirty =>
    let b1 := b.update maxw maxh
    let rest := updateBoxes maxw maxh bs (dirty ++ [b1.getRect])
    (b1 :: rest.1, rest.2)

/-- The inner loop of the paint pass: `needsDraw` with its early `break`. -/
def needsDraw (rect : Rect) : List Rect → Bool
  | [] => false
  | dr :: rest => if rect.intersects dr then true else needsDraw rect rest

/-- The paint pass of `loop`: the boxes handed to `draw`, in order. -/
def paintPass (dirty : List Rect) : List MovingBox → List MovingBox
  | [] => []
  | b :: bs => if needsDraw b.getRect dirty then b :: paintPass dirty bs else paintPass dirty bs

/-- The state of `loop` when it reaches the clear pass: both push loops have run. -/
def loopMark (s : NanoVGExample) : NanoVGExample :=
  let dirty := pushOldRects s.boxes s.dirtyRects
  let r := updateBoxes (s.winWidth : ℚ) (s.winHeight : ℚ) s.boxes dirty
  { s with boxes := r.1, dirtyRects := r.2 }

/-- What one tick sends to the GPU: the scissored clears and the painted boxes. -/
structure Frame where
  clears : List Scissor
  painted : List MovingBox
  deriving DecidableEq, Repr

/-- The clear pass and the paint pass of `loop`, run on the marked state. -/
def loopFrame (s : NanoVGExample) : Frame :=
  let m := loopMark s
  { clears := m.dirtyRects.map (fun r => clearRectGL r.x r.y r.w r.h m.winHeight),
    painted := paintPass m.dirtyRects m.boxes }

/-- The function `loop`: the state it leaves behind (`dirtyRects.clear()` is the last statement). -/
def loop (s : NanoVGExample) : NanoVGExample :=
  { loopMark s with dirtyRects := [] }

/-- The state after `n` ticks of `loop`. -/
def ticks : Nat → NanoVGExample → NanoVGExample
  | 0, s => s
  | n + 1, s => ticks n (loop s)

/-- The scene built by `main`: three boxes on an 800 x 400 canvas, no dirty rectangle. -/
def mainScene : NanoVGExample :=
  { boxes := [MovingBox.new 100 80 50 50 2 (3 / 2) ⟨227 / 255, 51 / 255, 51 / 255, 1⟩,
              MovingBox.new 250 130 60 60 (-3 / 2) (11 / 5) ⟨51 / 255, 227 / 255, 51 / 255, 1⟩,
              MovingBox.new 500 200 40 40 (23 / 10) (-12 / 5) ⟨51 / 255, 51 / 255, 227 / 255, 1⟩],
    dirtyRects := [],
    winWidth := 800,
    winHeight := 400 }

/-! ## Binary32 arithmetic and `MovingBox::update` in it -/

/-- Binary logarithm by halving, with explicit fuel. -/
def log2Fuel : Nat → Nat → Nat
  | 0, _ => 0
  | fuel + 1, n => if 2 ≤ n then log2Fuel fuel (n / 2) + 1 else 0

/-- The position of the leading bit of `n` (0 for `n = 0`). -/
def ilog2 (n : Nat) : Nat := log2Fuel n n

/-- The exponent `e` with `2^e ≤ |q| < 2^(e+1)`, for `q ≠ 0`. -/
def binade (q : ℚ) : ℤ :=
  let e0 : ℤ := (ilog2 q.num.natAbs : ℤ) - (ilog2 q.den : ℤ)
  if (2 : ℚ) ^ e0 ≤ |q| then e0 else e0 - 1

/-- Rounding of a rational to the nearest integer, ties to the even one. -/
def roundHalfEven (x : ℚ) : ℤ :=
  let f := ⌊x⌋
  if x - f < 1 / 2 then f else if 1 / 2 < x - f then f + 1 else if f % 2 = 0 then f else f + 1

/-- The exponent used for the spacing: the binade, at least -126 (subnormal range). -/
def expo32 (q : ℚ) : ℤ := max (binade q) (-126)

/-- The spacing of binary32 values around `q`: 24 significant bits, exponent at least -126. -/
def ulp32 (q : ℚ) : ℚ := (2 : ℚ) ^ (expo32 q - 23)

/-- Rounding of a non-negative rational to the binary32 grid (unbounded exponent). -/
def roundMag (q : ℚ) : ℚ := roundHalfEven (q / ulp32 q) * ulp32 q

/-- Round to nearest, ties to even, on the binary32 grid (unbounded exponent). -/
def round32 (q : ℚ) : ℚ := if q < 0 then -roundMag (-q) else roundMag q

/-- The largest finite binary32 value, (2^24 - 1) * 2^104. -/
def maxFloat : ℚ := 340282346638528859811704183484516925440

/-- A C `float` (IEEE binary32): NaN, the two infinities, or a finite value.  The sign of
zero is not tracked; no comparison or sum of the source depends on it. -/
inductive F32 where
  | nan : F32
  | ninf : F32
  | pinf : F32
  | fin (q : ℚ) : F32
  deriving DecidableEq, Repr

/-- The float nearest to a rational: rounding, then overflow to an infinity. -/
def F32.ofRat (q : ℚ) : F32 :=
  if maxFloat < round32 q then F32.pinf
  else if round32 q < -maxFloat then F32.ninf
  else F32.fin (round32 q)

/-- The rational `q` is a finite binary32 value. -/
def IsFloat (q : ℚ) : Prop := F32.ofRat q = F32.fin q

instance IsFloat.decidable (q : ℚ) : Decidable (IsFloat q) :=
  inferInstanceAs (Decidable (F32.ofRat q = F32.fin q))

/-- Unary minus on floats. -/
def F32.neg : F32 → F32
  | F32.nan => F32.nan
  | F32.ninf => F32.pinf
  | F32.pinf => F32.ninf
  | F32.fin q => F32.fin (-q)

/-- Float addition `a + b`. -/
def F32.add : F32 → F32 → F32
  | F32.nan, _ => F32.nan
  | _, F32.nan => F32.nan
  | F32.pinf, F32.ninf => F32.nan
  | F32.ninf, F32.pinf => F32.nan
  | F32.pinf, _ => F32.pinf
  | _, F32.pinf => F32.pinf
  | F32.ninf, _ => F32.ninf
  | _, F32.ninf => F32.ninf
  | F32.fin a, F32.fin b => F32.ofRat (a + b)

/-- Float subtraction `a - b`. -/
def F32.sub (a b : F32) : F32 := a.add b.neg

/-- The comparison `a < b` of C; false as soon as one side is NaN. -/
def F32.lt : F32 → F32 → Bool
  | F32.fin a, F32.fin b => decide (a < b)
  | F32.ninf, F32.fin _ => true
  | F32.ninf, F32.pinf => true
  | F32.fin _, F32.pinf => true
  | _, _ => false

/-- The comparison `a <= b` of C; false as soon as one side is NaN. -/
def F32.le : F32 → F32 → Bool
  | F32.fin a, F32.fin b => decide (a ≤ b)
  | F32.ninf, F32.nan => false
  | F32.ninf, _ => true
  | F32.fin _, F32.pinf => true
  | F32.pinf, F32.pinf => true
  | _, _ => false

/-- The library function `std::min(a, b)` on floats, `(b < a) ? b : a`. -/
def stdMin32 (a b : F32) : F32 := if b.lt a then b else a

/-- The library function `std::max(a, b)` on floats, `(a < b) ? b : a`. -/
def stdMax32 (a b : F32) : F32 := if a.lt b then b else a

/-- The record `struct Rect` with binary32 fields. -/
structure Rect32 where
  x : F32
  y : F32
  w : F32
  h : F32
  deriving DecidableEq, Repr

/-- The record `struct MovingBox` with binary32 fields. -/
structure MovingBox32 where
  x : F32
  y : F32
  w : F32
  h : F32
  dx : F32
  dy : F32
  color : NVGcolor
  oldRect : Rect32
  deriving DecidableEq, Repr

/-- The method `MovingBox::getRect` on binary32 fields. -/
def MovingBox32.getRect (b : MovingBox32) : Rect32 := ⟨b.x, b.y, b.w, b.h⟩

/-- The constructor `MovingBox::MovingBox` on binary32 fields. -/
def MovingBox32.new (x y w h dx dy : F32) (c : NVGcolor) : MovingBox32 :=
  { x := x, y := y, w := w, h := h, dx := dx, dy := dy, color := c, oldRect := ⟨x, y, w, h⟩ }

/-- The method `MovingBox::update(maxw, maxh)` in binary32 arithmetic, statement by
statement: every `+` and `-` rounds, every comparison is the float comparison. -/
def MovingBox32.update (b : MovingBox32) (maxw maxh : F32) : MovingBox32 :=
  let oldRect := b.getRect
  let x := b.x.add b.dx
  let y := b.y.add b.dy
  let dx := if x.lt (F32.fin 0) || maxw.lt (x.add b.w) then b.dx.neg else b.dx
  let dy := if y.lt (F32.fin 0) || maxh.lt (y.add b.h) then b.dy.neg else b.dy
  let x := stdMax32 (F32.fin 0) (stdMin32 x (maxw.sub b.w))
  let y := stdMax32 (F32.fin 0) (stdMin32 y (maxh.sub b.h))
  { b with x := x, y := y, dx := dx, dy := dy, oldRect := oldRect }

/-! ## nanovg_gl_utils.h -/

/-- The record `struct NVGLUframebuffer`; `ctx` is a pointer, 0 being NULL. -/
structure NVGLUframebuffer where
  ctx : Nat
  fbo : Nat
  rbo : Nat
  texture : Nat
  image : Int
  deriving DecidableEq, Repr

/-- The GL context, the NanoVG image store and the C heap, as far as the two functions
touch them: current bindings, live object names, allocated framebuffer structs. -/
structure GLState where
  framebufferBinding : Int
  renderbufferBinding : Int
  framebuffers : List Nat
  renderbuffers : List Nat
  images : List Int
  heap : List (Nat × NVGLUframebuffer)
  deriving DecidableEq, Repr

/-- What the environment answers during one `nvgluCreateFramebuffer`: the address returned
by `malloc` (0 when it fails), the image id returned by `nvgCreateImageRGBA` (0 when it
fails), the texture of that image, the names written by `glGenFramebuffers` and
`glGenRenderbuffers` (0 when none is written), and the two completeness answers. -/
structure Driver where
  mallocResult : Nat
  image : Int
  texture : Nat
  fbo : Nat
  rbo : Nat
  stencilComplete : Bool
  depthStencilComplete : Bool
  deriving DecidableEq, Repr

/-- Read of `*p`: the struct stored at address `p`, if that address is allocated. -/
def heapRead (heap : List (Nat × NVGLUframebuffer)) (p : Nat) : Option NVGLUframebuffer :=
  (heap.find? (fun e => e.1 = p)).map Prod.snd

/-- Removal of address `p` from the heap (`free`). -/
def heapFree (heap : List (Nat × NVGLUframebuffer)) (p : Nat) : List (Nat × NVGLUframebuffer) :=
  heap.filter (fun e => e.1 ≠ p)

/-- Write of a whole struct at address `p`. -/
def heapStore (heap : List (Nat × NVGLUframebuffer)) (p : Nat) (f : NVGLUframebuffer) :
    List (Nat × NVGLUframebuffer) :=
  (p, f) :: heapFree heap p

/-- The call `glGenFramebuffers(1, &name)`: a written name becomes live. -/
def glGenFramebuffers (name : Nat) (s : GLState) : GLState :=
  if name ≠ 0 then { s with framebuffers := name :: s.framebuffers } else s

/-- The call `glGenRenderbuffers(1, &name)`: a written name becomes live. -/
def glGenRenderbuffers (name : Nat) (s : GLState) : GLState :=
  if name ≠ 0 then { s with renderbuffers := name :: s.renderbuffers } else s

/-- The call `nvgCreateImageRGBA`: a positive id is a new live image. -/
def nvgCreateImageRGBA (id : Int) (s : GLState) : GLState :=
  if 0 < id then { s with images := id :: s.images } else s

/-- The call `glBindFramebuffer(GL_FRAMEBUFFER, name)`. -/
def glBindFramebuffer (name : Int) (s : GLState) : GLState :=
  { s with framebufferBinding := name }

/-- The call `glBindRenderbuffer(GL_RENDERBUFFER, name)`. -/
def glBindRenderbuffer (name : Int) (s : GLState) : GLState :=
  { s with renderbufferBinding := name }

/-- The call `glDeleteFramebuffers(1, &name)`: the name leaves the live set. -/
def glDeleteFramebuffers (name : Nat) (s : GLState) : GLState :=
  { s with framebuffers := s.framebuffers.erase name }

/-- The call `glDeleteRenderbuffers(1, &name)`: the name leaves the live set. -/
def glDeleteRenderbuffers (name : Nat) (s : GLState) : GLState :=
  { s with renderbuffers := s.renderbuffers.erase name }

/-- The call `nvgDeleteImage(ctx, id)`: the image leaves the live set. -/
def nvgDeleteImage (id : Int) (s : GLState) : GLState :=
  { s with images := s.images.erase id }

/-- The function `nvgluDeleteFramebuffer(fb)`.  The result is `none` when the call has
undefined behaviour: `fb` is neither NULL nor the address of an allocated struct, so
`fb->fbo` reads memory that is not allocated and `free(fb)` frees it again; C defines no
outcome for such a call, and the embedding assigns it no state. -/
def nvgluDeleteFramebuffer (fb : Nat) (s : GLState) : Option GLState :=
  if fb = 0 then some s
  else
    match heapRead s.heap fb with
    | none => none
    | some f =>
      let s := if f.fbo ≠ 0 then glDeleteFramebuffers f.fbo s else s
      let s := if f.rbo ≠ 0 then glDeleteRenderbuffers f.rbo s else s
      let s := if f.image ≥ 0 then nvgDeleteImage f.image s else s
      let s := { s with heap := heapStore s.heap fb ⟨0, 0, 0, 0, -1⟩ }
      some { s with heap := heapFree s.heap fb }

/-- The `error:` exit of `nvgluCreateFramebuffer`: rebind, delete, return NULL. -/
def createError (defaultFBO defaultRBO : Int) (fb : Nat) (s : GLState) : Option (Nat × GLState) :=
  let s := glBindFramebuffer defaultFBO s
  let s := glBindRenderbuffer defaultRBO s
  (nvgluDeleteFramebuffer fb s).map (fun s => (0, s))

/-- Lines 179 to 198 of `nvgluCreateFramebuffer`: the struct at `fb` is zeroed, the image,
the framebuffer and the renderbuffer are created, written into the struct and bound.
Storage and attachment calls change nothing that the state records; their outcome is the
completeness answer of the driver. -/
def createObjects (d : Driver) (ctx fb : Nat) (s : GLState) : GLState :=
  let s := { s with heap := heapStore s.heap fb ⟨0, 0, 0, 0, 0⟩ }
  let s := nvgCreateImageRGBA d.image s
  let s := { s with heap := heapStore s.heap fb ⟨0, 0, 0, d.texture, d.image⟩ }
  let s := { s with heap := heapStore s.heap fb ⟨ctx, 0, 0, d.texture, d.image⟩ }
  let s := glGenFramebuffers d.fbo s
  let s := { s with heap := heapStore s.heap fb ⟨ctx, d.fbo, 0, d.texture, d.image⟩ }
  let s := glBindFramebuffer d.fbo s
  let s := glGenRenderbuffers d.rbo s
  let s := { s with heap := heapStore s.heap fb ⟨ctx, d.fbo, d.rbo, d.texture, d.image⟩ }
  glBindRenderbuffer d.rbo s

/-- The function `nvgluCreateFramebuffer(ctx, w, h, imageFlags)`: the returned pointer
(0 is NULL) and the state it leaves.  `depth24` says whether the macro GL_DEPTH24_STENCIL8
is defined, which compiles the fallback in. -/
def nvgluCreateFramebuffer (depth24 : Bool) (d : Driver) (ctx : Nat) (_w _h _imageFlags : Int)
    (s : GLState) : Option (Nat × GLState) :=
  let defaultFBO := s.framebufferBinding
  let defaultRBO := s.renderbufferBinding
  let fb := d.mallocResult
  if fb = 0 then createError defaultFBO defaultRBO fb s
  else
    let s := createObjects d ctx fb s
    let failed : Bool :=
      if d.stencilComplete then false
      else if depth24 then (if d.depthStencilComplete then false else true)
      else true
    if failed then createError defaultFBO defaultRBO fb s
    else
      let s := glBindFramebuffer defaultFBO s
      let s := glBindRenderbuffer defaultRBO s
      some (fb, s)

/-- A context with one framebuffer, one renderbuffer and two images alive, nothing on the heap. -/
def sampleGL : GLState :=
  { framebufferBinding := 3, renderbufferBinding := 5, framebuffers := [3], renderbuffers := [5],
    images := [1, 2], heap := [] }

/-- A driver that hands out fresh names and reports the framebuffer incomplete twice. -/
def incompleteDriver : Driver :=
  { mallocResult := 4096, image := 3, texture := 17, fbo := 4, rbo := 6,
    stencilComplete := false, depthStencilComplete := false }

/-- A driver that hands out fresh names and accepts the stencil-only format. -/
def completeDriver : Driver :=
  { mallocResult := 4096, image := 3, texture := 17, fbo := 4, rbo := 6,
    stencilComplete := true, depthStencilComplete := true }

theorem pushOldRects_eq (bs : List MovingBox) (dirty : List Rect) :
    pushOldRects bs dirty = dirty ++ bs.map MovingBox.oldRect := by
  induction bs generalizing dirty with
  | nil => simp [pushOldRects]
  | cons b bs ih => simp [pushOldRects, ih]

theorem updateBoxes_fst (maxw maxh : ℚ) (bs : List MovingBox) (dirty : List Rect) :
    (updateBoxes maxw maxh bs dirty).1 = bs.map (fun b => b.update maxw maxh) := by
  induction bs generalizing dirty with
  | nil => simp [updateBoxes]
  | cons b bs ih => simp [updateBoxes, ih]

theorem updateBoxes_snd (maxw maxh : ℚ) (bs : List MovingBox) (dirty : List Rect) :
    (updateBoxes maxw maxh bs dirty).2 =
      dirty ++ bs.map (fun b => (b.update maxw maxh).getRect) := by
  induction bs generalizing dirty with
  | nil => simp [updateBoxes]
  | cons b bs ih => simp [updateBoxes, ih]

theorem loopMark_boxes (s : NanoVGExample) :
    (loopMark s).boxes = s.boxes.map (fun b => b.update s.winWidth s.winHeight) := by
  simp [loopMark, updateBoxes_fst]

theorem loopMark_dirtyRects (s : NanoVGExample) :
    (loopMark s).dirtyRects =
      s.dirtyRects ++ s.boxes.map MovingBox.oldRect ++
        s.boxes.map (fun b => (b.update s.winWidth s.winHeight).getRect) := by
  simp [loopMark, updateBoxes_snd, pushOldRects_eq]

theorem loop_boxes_length (s : NanoVGExample) : (loop s).boxes.length = s.boxes.length := by
  simp [loop, loopMark_boxes]

theorem loop_dirtyRects (s : NanoVGExample) : (loop s).dirtyRects = [] := rfl

theorem ticks_succ_eq (n : Nat) (s : NanoVGExample) : ticks (n + 1) s = loop (ticks n s) := by
  induction n generalizing s with
  | zero => rfl
  | succ n ih =>
    show ticks (n + 1) (loop s) = loop (ticks (n + 1) s)
    rw [ih (loop s)]
    rfl

theorem ticks_boxes_length (n : Nat) (s : NanoVGExample) :
    (ticks n s).boxes.length = s.boxes.length := by
  induction n with
  | zero => rfl
  | succ n ih => rw [ticks_succ_eq, loop_boxes_length, ih]

theorem ticks_dirtyRects (n : Nat) (s : NanoVGExample) (h : s.dirtyRects = []) :
    (ticks n s).dirtyRects = [] := by
  cases n with
  | zero => exact h
  | succ n => rw [ticks_succ_eq, loop_dirtyRects]

theorem needsDraw_of_mem (rect dr : Rect) (dirty : List Rect) (hmem : dr ∈ dirty)
    (hint : rect.intersects dr = true) : needsDraw rect dirty = true := by
  induction dirty with
  | nil => simp at hmem
  | cons d rest ih =>
    unfold needsDraw
    by_cases hd : rect.intersects d = true
    · simp [hd]
    · rcases List.mem_cons.mp hmem with rfl | hrest
      · exact absurd hint hd
      · simp [hd, ih hrest]

theorem paintPass_all (dirty : List Rect) (bs : List MovingBox)
    (h : ∀ b ∈ bs, needsDraw b.getRect dirty = true) : paintPass dirty bs = bs := by
  induction bs with
  | nil => rfl
  | cons b bs ih =>
    have hb : needsDraw b.getRect dirty = true := h b (List.mem_cons_self b bs)
    have hrest : ∀ c ∈ bs, needsDraw c.getRect dirty = true :=
      fun c hc => h c (List.mem_cons_of_mem b hc)
    simp [paintPass, hb, ih hrest]

theorem Rect.intersects_self (r : Rect) (hw : 0 ≤ r.w) (hh : 0 ≤ r.h) :
    r.intersects r = true := by
  simp only [Rect.intersects, Bool.not_eq_true', Bool.or_eq_false_iff, decide_eq_false_iff_not,
    not_lt]
  refine ⟨⟨⟨?_, ?_⟩, ?_⟩, ?_⟩ <;> linarith

theorem loop_sizes_nonneg (s : NanoVGExample)
    (h : ∀ b ∈ s.boxes, 0 ≤ b.w ∧ 0 ≤ b.h) : ∀ b ∈ (loop s).boxes, 0 ≤ b.w ∧ 0 ≤ b.h := by
  intro b hb
  have hb2 : b ∈ s.boxes.map (fun b => b.update s.winWidth s.winHeight) := by
    have := loopMark_boxes s
    simpa [loop, this] using hb
  obtain ⟨c, hc, rfl⟩ := List.mem_map.mp hb2
  exact h c hc

theorem ticks_sizes_nonneg (n : Nat) (s : NanoVGExample)
    (h : ∀ b ∈ s.boxes, 0 ≤ b.w ∧ 0 ≤ b.h) : ∀ b ∈ (ticks n s).boxes, 0 ≤ b.w ∧ 0 ≤ b.h := by
  induction n with
  | zero => exact h
  | succ n ih =>
    rw [ticks_succ_eq]
    exact loop_sizes_nonneg _ ih

/-! ## Lemmas on binary32 rounding -/

theorem log2Fuel_eq (fuel n : Nat) (h : n ≤ fuel) : log2Fuel fuel n = Nat.log2 n := by
  induction fuel generalizing n with
  | zero =>
    have : n = 0 := by omega
    subst this
    simp [log2Fuel, Nat.log2]
  | succ k ih =>
    rw [log2Fuel, Nat.log2]
    by_cases h2 : 2 ≤ n
    · have : n / 2 ≤ k := by omega
      simp [h2, ih _ this]
    · simp [h2]

theorem ilog2_eq (n : Nat) : ilog2 n = Nat.log2 n := log2Fuel_eq n n le_rfl

theorem ilog2_le (n : Nat) (h : n ≠ 0) : 2 ^ ilog2 n ≤ n := by
  rw [ilog2_eq]; exact Nat.log2_self_le h

theorem lt_ilog2 (n : Nat) : n < 2 ^ (ilog2 n + 1) := by
  rw [ilog2_eq]; exact Nat.lt_log2_self


theorem two_zpow_pos (e : ℤ) : (0 : ℚ) < (2 : ℚ) ^ e := zpow_pos (by norm_num) e

theorem abs_eq_natAbs_div (q : ℚ) : |q| = (q.num.natAbs : ℚ) / (q.den : ℚ) := by
  have h : q = (q.num : ℚ) / (q.den : ℚ) := (Rat.num_div_den q).symm
  have hd : (0 : ℚ) < (q.den : ℚ) := by exact_mod_cast q.den_pos
  conv_lhs => rw [h]
  rw [abs_div, abs_of_pos hd, Nat.cast_natAbs, Int.cast_abs]

theorem binade_spec (q : ℚ) (hq : q ≠ 0) :
    (2 : ℚ) ^ binade q ≤ |q| ∧ |q| < (2 : ℚ) ^ (binade q + 1) := by
  have hn0 : q.num.natAbs ≠ 0 := by
    simpa [Int.natAbs_eq_zero] using hq
  have hd0 : q.den ≠ 0 := q.den_nz
  have hA1 : ((2 : ℚ) ^ (ilog2 q.num.natAbs : ℕ)) ≤ (q.num.natAbs : ℚ) := by
    exact_mod_cast ilog2_le _ hn0
  have hA2 : (q.num.natAbs : ℚ) < 2 * ((2 : ℚ) ^ (ilog2 q.num.natAbs : ℕ)) := by
    have := lt_ilog2 q.num.natAbs
    rw [pow_succ] at this
    have h2 : ((q.num.natAbs : ℕ) : ℚ) < ((2 ^ ilog2 q.num.natAbs * 2 : ℕ) : ℚ) := by
      exact_mod_cast this
    push_cast at h2
    linarith
  have hC1 : ((2 : ℚ) ^ (ilog2 q.den : ℕ)) ≤ (q.den : ℚ) := by
    exact_mod_cast ilog2_le _ hd0
  have hC2 : (q.den : ℚ) < 2 * ((2 : ℚ) ^ (ilog2 q.den : ℕ)) := by
    have := lt_ilog2 q.den
    rw [pow_succ] at this
    have h2 : ((q.den : ℕ) : ℚ) < ((2 ^ ilog2 q.den * 2 : ℕ) : ℚ) := by
      exact_mod_cast this
    push_cast at h2
    linarith
  have hA : (0 : ℚ) < (2 : ℚ) ^ (ilog2 q.num.natAbs : ℕ) := by positivity
  have hC : (0 : ℚ) < (2 : ℚ) ^ (ilog2 q.den : ℕ) := by positivity
  have hD : (0 : ℚ) < (q.den : ℚ) := by exact_mod_cast q.den_pos
  have he0 : (2 : ℚ) ^ ((ilog2 q.num.natAbs : ℤ) - (ilog2 q.den : ℤ)) =
      (2 : ℚ) ^ (ilog2 q.num.natAbs : ℕ) / (2 : ℚ) ^ (ilog2 q.den : ℕ) := by
    rw [zpow_sub₀ (by norm_num : (2 : ℚ) ≠ 0), zpow_natCast, zpow_natCast]
  have habs := abs_eq_natAbs_div q
  unfold binade
  simp only []
  split_ifs with hle
  · refine ⟨hle, ?_⟩
    rw [zpow_add_one₀ (by norm_num : (2 : ℚ) ≠ 0), he0, habs, div_mul_eq_mul_div,
      div_lt_div_iff₀ hD hC]
    nlinarith
  · have hlt := not_le.mp hle
    refine ⟨?_, by simpa using hlt⟩
    rw [zpow_sub_one₀ (by norm_num : (2 : ℚ) ≠ 0), he0, habs, div_mul_eq_mul_div,
      div_le_div_iff₀ hC hD]
    have : (2 : ℚ)⁻¹ = 1 / 2 := by norm_num
    rw [this]
    nlinarith

theorem binade_unique (q : ℚ) (hq : q ≠ 0) (e : ℤ) (h1 : (2 : ℚ) ^ e ≤ |q|)
    (h2 : |q| < (2 : ℚ) ^ (e + 1)) : binade q = e := by
  obtain ⟨s1, s2⟩ := binade_spec q hq
  have a1 : binade q < e + 1 :=
    (zpow_lt_zpow_iff_right₀ (by norm_num : (1 : ℚ) < 2)).mp (lt_of_le_of_lt s1 h2)
  have a2 : e < binade q + 1 :=
    (zpow_lt_zpow_iff_right₀ (by norm_num : (1 : ℚ) < 2)).mp (lt_of_le_of_lt h1 s2)
  omega

theorem binade_mono (a b : ℚ) (ha : 0 < a) (hab : a ≤ b) : binade a ≤ binade b := by
  have hb : 0 < b := lt_of_lt_of_le ha hab
  obtain ⟨a1, _⟩ := binade_spec a ha.ne'
  obtain ⟨_, b2⟩ := binade_spec b hb.ne'
  rw [abs_of_pos ha] at a1
  rw [abs_of_pos hb] at b2
  have : binade a < binade b + 1 :=
    (zpow_lt_zpow_iff_right₀ (by norm_num : (1 : ℚ) < 2)).mp (lt_of_le_of_lt (a1.trans hab) b2)
  omega

theorem roundHalfEven_intCast (k : ℤ) : roundHalfEven (k : ℚ) = k := by
  simp [roundHalfEven]

theorem floor_le_roundHalfEven (x : ℚ) : ⌊x⌋ ≤ roundHalfEven x := by
  unfold roundHalfEven
  simp only []
  split_ifs <;> omega

theorem roundHalfEven_le_floor_add_one (x : ℚ) : roundHalfEven x ≤ ⌊x⌋ + 1 := by
  unfold roundHalfEven
  simp only []
  split_ifs <;> omega

theorem roundHalfEven_mono (x y : ℚ) (h : x ≤ y) : roundHalfEven x ≤ roundHalfEven y := by
  have hf : ⌊x⌋ ≤ ⌊y⌋ := Int.floor_mono h
  rcases lt_or_eq_of_le hf with hlt | heq
  · have := roundHalfEven_le_floor_add_one x
    have := floor_le_roundHalfEven y
    omega
  · unfold roundHalfEven
    simp only []
    rw [← heq]
    have hxy : x - (⌊x⌋ : ℚ) ≤ y - (⌊x⌋ : ℚ) := by linarith
    split_ifs <;> first | omega | (exfalso; linarith)

theorem ulp32_pos (q : ℚ) : 0 < ulp32 q := two_zpow_pos _

theorem expo32_ge (q : ℚ) : -126 ≤ expo32 q := le_max_right _ _

theorem binade_le_expo32 (q : ℚ) : binade q ≤ expo32 q := le_max_left _ _

theorem two_zpow_expo32 (q : ℚ) : (2 : ℚ) ^ (expo32 q + 1) = 2 ^ (24 : ℕ) * ulp32 q := by
  unfold ulp32
  rw [← zpow_natCast, ← zpow_add₀ (by norm_num : (2 : ℚ) ≠ 0)]
  congr 1
  push_cast
  ring

theorem two_zpow_expo32_eq (q : ℚ) : (2 : ℚ) ^ expo32 q = 2 ^ (23 : ℕ) * ulp32 q := by
  unfold ulp32
  rw [← zpow_natCast, ← zpow_add₀ (by norm_num : (2 : ℚ) ≠ 0)]
  congr 1
  push_cast
  ring

theorem roundMag_zero : roundMag 0 = 0 := by
  simp [roundMag, roundHalfEven]

theorem roundMag_nonneg (q : ℚ) (hq : 0 ≤ q) : 0 ≤ roundMag q := by
  unfold roundMag
  have h0 : (0 : ℚ) ≤ q / ulp32 q := div_nonneg hq (ulp32_pos q).le
  have h1 : (0 : ℤ) ≤ roundHalfEven (q / ulp32 q) := by
    have := roundHalfEven_mono 0 _ h0
    rwa [show roundHalfEven 0 = 0 from by simp [roundHalfEven]] at this
  exact mul_nonneg (by exact_mod_cast h1) (ulp32_pos q).le

theorem lt_two_zpow_expo32 (q : ℚ) (hq : 0 < q) : q < (2 : ℚ) ^ (expo32 q + 1) := by
  obtain ⟨_, h2⟩ := binade_spec q hq.ne'
  rw [abs_of_pos hq] at h2
  refine lt_of_lt_of_le h2 (zpow_le_zpow_right₀ (by norm_num) ?_)
  have := binade_le_expo32 q
  omega

theorem roundMag_le (q : ℚ) (hq : 0 < q) : roundMag q ≤ (2 : ℚ) ^ (expo32 q + 1) := by
  have hu := ulp32_pos q
  have h1 : q / ulp32 q ≤ ((2 ^ 24 : ℤ) : ℚ) := by
    rw [div_le_iff₀ hu]
    have := lt_two_zpow_expo32 q hq
    rw [two_zpow_expo32] at this
    push_cast
    exact this.le
  have h2 := roundHalfEven_mono _ _ h1
  rw [roundHalfEven_intCast] at h2
  rw [two_zpow_expo32]
  unfold roundMag
  have h3 : (roundHalfEven (q / ulp32 q) : ℚ) ≤ ((2 ^ 24 : ℤ) : ℚ) := by exact_mod_cast h2
  push_cast at h3
  exact mul_le_mul_of_nonneg_right h3 hu.le

theorem le_roundMag (q : ℚ) (hq : 0 < q) (hn : -126 ≤ binade q) :
    (2 : ℚ) ^ expo32 q ≤ roundMag q := by
  have hu := ulp32_pos q
  have he : expo32 q = binade q := max_eq_left hn
  obtain ⟨h1, _⟩ := binade_spec q hq.ne'
  rw [abs_of_pos hq, ← he, two_zpow_expo32_eq] at h1
  have h2 : ((2 ^ 23 : ℤ) : ℚ) ≤ q / ulp32 q := by
    rw [le_div_iff₀ hu]
    push_cast
    exact h1
  have h3 := roundHalfEven_mono _ _ h2
  rw [roundHalfEven_intCast] at h3
  rw [two_zpow_expo32_eq]
  unfold roundMag
  have h4 : ((2 ^ 23 : ℤ) : ℚ) ≤ (roundHalfEven (q / ulp32 q) : ℚ) := by exact_mod_cast h3
  push_cast at h4
  exact mul_le_mul_of_nonneg_right h4 hu.le

theorem roundMag_mono (a b : ℚ) (ha : 0 ≤ a) (hab : a ≤ b) : roundMag a ≤ roundMag b := by
  rcases eq_or_lt_of_le ha with h0 | hpos
  · rw [← h0, roundMag_zero]
    exact roundMag_nonneg b (ha.trans hab)
  · have hb : 0 < b := lt_of_lt_of_le hpos hab
    have hbin := binade_mono a b hpos hab
    have hexp : expo32 a ≤ expo32 b := max_le_max hbin le_rfl
    rcases eq_or_lt_of_le hexp with heq | hlt
    · have hu : ulp32 a = ulp32 b := by unfold ulp32; rw [heq]
      unfold roundMag
      rw [hu]
      have h1 : a / ulp32 b ≤ b / ulp32 b := div_le_div_of_nonneg_right hab (ulp32_pos b).le
      have h2 := roundHalfEven_mono _ _ h1
      exact mul_le_mul_of_nonneg_right (by exact_mod_cast h2) (ulp32_pos b).le
    · have hnb : -126 ≤ binade b := by
        by_contra hcon
        have h1 : expo32 b = -126 := max_eq_right (by omega)
        have h2 := expo32_ge a
        omega
      calc roundMag a ≤ (2 : ℚ) ^ (expo32 a + 1) := roundMag_le a hpos
        _ ≤ (2 : ℚ) ^ expo32 b := zpow_le_zpow_right₀ (by norm_num) (by omega)
        _ ≤ roundMag b := le_roundMag b hb hnb

theorem roundMag_of_grid (r : ℚ) (k : ℤ) (h : r = k * ulp32 r) : roundMag r = r := by
  unfold roundMag
  have hu := ulp32_pos r
  have : r / ulp32 r = (k : ℚ) := by
    rw [div_eq_iff hu.ne']
    exact h
  rw [this, roundHalfEven_intCast]
  exact h.symm

theorem roundMag_idem (q : ℚ) (hq : 0 ≤ q) : roundMag (roundMag q) = roundMag q := by
  rcases eq_or_lt_of_le hq with h0 | hpos
  · rw [← h0, roundMag_zero, roundMag_zero]
  · have hr0 := roundMag_nonneg q hq
    rcases eq_or_lt_of_le hr0 with hz | hrpos
    · rw [← hz, roundMag_zero]
    · have hle := roundMag_le q hpos
      rcases eq_or_lt_of_le hle with htop | hlt
      · -- the result is the next power of two
        have hb : binade (roundMag q) = expo32 q + 1 := by
          apply binade_unique _ hrpos.ne'
          · rw [abs_of_pos hrpos, htop]
          · rw [abs_of_pos hrpos, htop]
            exact (zpow_lt_zpow_iff_right₀ (by norm_num : (1 : ℚ) < 2)).mpr (by omega)
        have he : expo32 (roundMag q) = expo32 q + 1 := by
          unfold expo32 at *
          rw [hb]
          have := le_max_right (binade q) (-126)
          exact max_eq_left (by omega)
        apply roundMag_of_grid _ (2 ^ 23)
        have hu : ulp32 (roundMag q) = (2 : ℚ) ^ (expo32 q + 1 - 23) := by
          unfold ulp32; rw [he]
        rw [hu]
        conv_lhs => rw [htop]
        push_cast
        have h23 : (8388608 : ℚ) = (2 : ℚ) ^ (23 : ℤ) := by norm_num
        rw [h23, ← zpow_add₀ (by norm_num : (2 : ℚ) ≠ 0)]
        congr 1
        ring
      · -- the result stays in the binade of the argument
        have hb1 : binade (roundMag q) < expo32 q + 1 := by
          obtain ⟨s1, _⟩ := binade_spec _ hrpos.ne'
          rw [abs_of_pos hrpos] at s1
          exact (zpow_lt_zpow_iff_right₀ (by norm_num : (1 : ℚ) < 2)).mp (lt_of_le_of_lt s1 hlt)
        have he : expo32 (roundMag q) = expo32 q := by
          by_cases hn : -126 ≤ binade q
          · have hge := le_roundMag q hpos hn
            obtain ⟨_, s2⟩ := binade_spec _ hrpos.ne'
            rw [abs_of_pos hrpos] at s2
            have hb2 : expo32 q < binade (roundMag q) + 1 :=
              (zpow_lt_zpow_iff_right₀ (by norm_num : (1 : ℚ) < 2)).mp (lt_of_le_of_lt hge s2)
            have hbq : binade (roundMag q) = expo32 q := by omega
            unfold expo32 at *
            rw [hbq]
            exact max_eq_left (le_max_right _ _)
          · have h1 : expo32 q = -126 := max_eq_right (by omega)
            unfold expo32 at *
            rw [h1] at hb1 ⊢
            exact max_eq_right (by omega)
        apply roundMag_of_grid _ (roundHalfEven (q / ulp32 q))
        have hu : ulp32 (roundMag q) = ulp32 q := by unfold ulp32; rw [he]
        rw [hu]
        rfl

theorem round32_zero : round32 0 = 0 := by
  simp [round32, roundMag_zero]

theorem round32_mono (a b : ℚ) (h : a ≤ b) : round32 a ≤ round32 b := by
  unfold round32
  by_cases ha : a < 0 <;> by_cases hb : b < 0
  · simp only [ha, hb, if_true]
    exact neg_le_neg (roundMag_mono _ _ (by linarith) (by linarith))
  · simp only [ha, hb, if_true, if_false]
    have h1 := roundMag_nonneg (-a) (by linarith)
    have h2 := roundMag_nonneg b (not_lt.mp hb)
    linarith
  · exact absurd (lt_of_le_of_lt h hb) ha
  · simp only [ha, hb, if_false]
    exact roundMag_mono _ _ (not_lt.mp ha) h

theorem round32_idem (q : ℚ) : round32 (round32 q) = round32 q := by
  unfold round32
  by_cases hq : q < 0
  · simp only [hq, if_true]
    have h0 := roundMag_nonneg (-q) (by linarith)
    rcases eq_or_lt_of_le h0 with hz | hpos
    · rw [← hz]
      simp [roundMag_zero]
    · have : -roundMag (-q) < 0 := by linarith
      simp only [this, if_true, neg_neg]
      rw [roundMag_idem _ (by linarith)]
  · simp only [hq, if_false]
    have h0 := roundMag_nonneg q (not_lt.mp hq)
    simp only [not_lt.mpr h0, if_false]
    exact roundMag_idem q (not_lt.mp hq)


theorem isFloat_iff (q : ℚ) : IsFloat q ↔ round32 q = q ∧ -maxFloat ≤ q ∧ q ≤ maxFloat := by
  unfold IsFloat F32.ofRat
  constructor
  · intro h
    split_ifs at h with h1 h2
    have hq : round32 q = q := by injection h
    rw [hq] at h1 h2
    exact ⟨hq, not_lt.mp h2, not_lt.mp h1⟩
  · rintro ⟨hq, h1, h2⟩
    rw [hq]
    simp [not_lt.mpr h1, not_lt.mpr h2]

theorem ofRat_eq_fin (q : ℚ) (h1 : -maxFloat ≤ round32 q) (h2 : round32 q ≤ maxFloat) :
    F32.ofRat q = F32.fin (round32 q) := by
  unfold F32.ofRat
  simp [not_lt.mpr h1, not_lt.mpr h2]

theorem ofRat_fin_rounded (q a : ℚ) (h : F32.ofRat q = F32.fin a) : round32 a = a := by
  unfold F32.ofRat at h
  split_ifs at h
  have : round32 q = a := by injection h
  rw [← this, round32_idem]

theorem add_fin_rounded (p q : F32) (a : ℚ) (h : p.add q = F32.fin a) : round32 a = a := by
  cases p <;> cases q <;> simp [F32.add] at h
  exact ofRat_fin_rounded _ _ h

theorem le_fin_fin (a b : ℚ) : F32.le (F32.fin a) (F32.fin b) = true ↔ a ≤ b := by
  simp [F32.le]

theorem lt_fin_fin (a b : ℚ) : F32.lt (F32.fin a) (F32.fin b) = true ↔ a < b := by
  simp [F32.lt]

theorem size_of_le (w : F32) (W : ℚ) (h0 : F32.le (F32.fin 0) w = true)
    (h1 : F32.le w (F32.fin W) = true) : ∃ v : ℚ, w = F32.fin v ∧ 0 ≤ v ∧ v ≤ W := by
  cases w with
  | nan => simp [F32.le] at h0
  | ninf => simp [F32.le] at h0
  | pinf => simp [F32.le] at h1
  | fin v => exact ⟨v, rfl, (le_fin_fin _ _).mp h0, (le_fin_fin _ _).mp h1⟩

theorem sub_fin_fin (W v : ℚ) (hW : IsFloat W) (h0 : 0 ≤ v) (h1 : v ≤ W) :
    (F32.fin W).sub (F32.fin v) = F32.fin (round32 (W - v)) ∧ 0 ≤ round32 (W - v) ∧
      round32 (W - v) ≤ W := by
  obtain ⟨hr, hlo, hhi⟩ := (isFloat_iff W).mp hW
  have hmaxpos : (0 : ℚ) ≤ maxFloat := by norm_num [maxFloat]
  have l0 : 0 ≤ round32 (W - v) := by
    have := round32_mono 0 (W - v) (by linarith)
    rwa [round32_zero] at this
  have l1 : round32 (W - v) ≤ W := by
    have := round32_mono (W - v) W (by linarith)
    rwa [hr] at this
  refine ⟨?_, l0, l1⟩
  show F32.ofRat (W + -v) = _
  rw [← sub_eq_add_neg]
  exact ofRat_eq_fin _ (by linarith) (by linarith)

theorem stdMax32_zero_fin (m : ℚ) (h : 0 ≤ m) : stdMax32 (F32.fin 0) (F32.fin m) = F32.fin m := by
  unfold stdMax32
  by_cases hm : 0 < m
  · simp [F32.lt, hm]
  · have : m = 0 := le_antisymm (not_lt.mp hm) h
    simp [F32.lt, this]


theorem clamp_bounds (X : F32) (m : ℚ) (hm : 0 ≤ m) :
    ∃ a : ℚ, stdMax32 (F32.fin 0) (stdMin32 X (F32.fin m)) = F32.fin a ∧ 0 ≤ a ∧ a ≤ m := by
  cases X with
  | nan => exact ⟨0, by simp [stdMin32, stdMax32, F32.lt], le_rfl, hm⟩
  | ninf => exact ⟨0, by simp [stdMin32, stdMax32, F32.lt], le_rfl, hm⟩
  | pinf =>
    refine ⟨m, ?_, hm, le_rfl⟩
    have : stdMin32 F32.pinf (F32.fin m) = F32.fin m := by simp [stdMin32, F32.lt]
    rw [this, stdMax32_zero_fin m hm]
  | fin a =>
    by_cases h1 : m < a
    · refine ⟨m, ?_, hm, le_rfl⟩
      have : stdMin32 (F32.fin a) (F32.fin m) = F32.fin m := by simp [stdMin32, F32.lt, h1]
      rw [this, stdMax32_zero_fin m hm]
    · have hmin : stdMin32 (F32.fin a) (F32.fin m) = F32.fin a := by simp [stdMin32, F32.lt, h1]
      rw [hmin]
      by_cases h2 : 0 < a
      · exact ⟨a, by simp [stdMax32, F32.lt, h2], h2.le, not_lt.mp h1⟩
      · exact ⟨0, by simp [stdMax32, F32.lt, h2], le_rfl, hm⟩

theorem clamp_inside (p d sz : F32) (W a w : ℚ) (hW : IsFloat W) (hp : p.add d = F32.fin a)
    (hsz : sz = F32.fin w) (h0 : 0 ≤ a) (h1 : a + w ≤ W) :
    ((p.add d).lt (F32.fin 0) || (F32.fin W).lt ((p.add d).add sz)) = false ∧
      stdMax32 (F32.fin 0) (stdMin32 (p.add d) ((F32.fin W).sub sz)) = F32.fin a := by
  obtain ⟨hr, hlo, hhi⟩ := (isFloat_iff W).mp hW
  have ha : round32 a = a := add_fin_rounded _ _ _ hp
  rw [hp, hsz]
  have hsum : round32 (a + w) ≤ W := by
    have := round32_mono (a + w) W h1
    rwa [hr] at this
  have hdiff : a ≤ round32 (W - w) := by
    have := round32_mono a (W - w) (by linarith)
    rwa [ha] at this
  constructor
  · have t1 : (F32.fin a).lt (F32.fin 0) = false := by simp [F32.lt, h0]
    have t2 : (F32.fin W).lt ((F32.fin a).add (F32.fin w)) = false := by
      show (F32.fin W).lt (F32.ofRat (a + w)) = false
      unfold F32.ofRat
      split_ifs with c1 c2
      · exact absurd (lt_of_lt_of_le c1 hsum) (not_lt.mpr hhi)
      · rfl
      · simp [F32.lt, hsum]
    rw [t1, t2]
    rfl
  · have hmin : stdMin32 (F32.fin a) ((F32.fin W).sub (F32.fin w)) = F32.fin a := by
      show stdMin32 (F32.fin a) (F32.ofRat (W + -w)) = F32.fin a
      rw [← sub_eq_add_neg]
      unfold F32.ofRat
      by_cases c1 : maxFloat < round32 (W - w)
      · simp [c1, stdMin32, F32.lt]
      · have c2 : ¬ round32 (W - w) < -maxFloat := by
          have hmaxpos : (0 : ℚ) ≤ maxFloat := by norm_num [maxFloat]
          exact not_lt.mpr (by linarith)
        simp [c1, c2, stdMin32, F32.lt, not_lt.mpr hdiff]
    rw [hmin, stdMax32_zero_fin a h0]

theorem clamp_reflect (X sz : F32) (W : ℚ) (hW : IsFloat W) (hX : ∀ a, X = F32.fin a → round32 a = a)
    (hw0 : F32.le (F32.fin 0) sz = true) (hw : F32.le sz (F32.fin W) = true)
    (hx : F32.lt (F32.fin W) (X.add sz) = true) :
    stdMax32 (F32.fin 0) (stdMin32 X ((F32.fin W).sub sz)) = (F32.fin W).sub sz := by
  obtain ⟨hr, hlo, hhi⟩ := (isFloat_iff W).mp hW
  obtain ⟨v, hv, hv0, hv1⟩ := size_of_le sz W hw0 hw
  obtain ⟨hsub, hm0, hm1⟩ := sub_fin_fin W v hW hv0 hv1
  rw [hv] at hx ⊢
  rw [hsub]
  cases X with
  | nan => simp [F32.add, F32.lt] at hx
  | ninf => simp [F32.add, F32.lt] at hx
  | pinf =>
    have : stdMin32 F32.pinf (F32.fin (round32 (W - v))) = F32.fin (round32 (W - v)) := by
      simp [stdMin32, F32.lt]
    rw [this, stdMax32_zero_fin _ hm0]
  | fin a =>
    have ha : round32 a = a := hX a rfl
    have hgt : W < a + v := by
      by_contra hcon
      have hsum : round32 (a + v) ≤ W := by
        have := round32_mono (a + v) W (not_lt.mp hcon)
        rwa [hr] at this
      have t2 : (F32.fin W).lt ((F32.fin a).add (F32.fin v)) = false := by
        show (F32.fin W).lt (F32.ofRat (a + v)) = false
        unfold F32.ofRat
        split_ifs with c1 c2
        · exact absurd (lt_of_lt_of_le c1 hsum) (not_lt.mpr hhi)
        · rfl
        · simp [F32.lt, hsum]
      rw [t2] at hx
      exact Bool.false_ne_true hx
    have hle : round32 (W - v) ≤ a := by
      have := round32_mono (W - v) a (by linarith)
      rwa [ha] at this
    have hmin : stdMin32 (F32.fin a) (F32.fin (round32 (W - v))) = F32.fin (round32 (W - v)) := by
      unfold stdMin32
      by_cases hlt : round32 (W - v) < a
      · simp [F32.lt, hlt]
      · have : a = round32 (W - v) := le_antisymm (not_lt.mp hlt) hle
        simp [F32.lt, ← this]
    rw [hmin, stdMax32_zero_fin _ hm0]

/-! ## Claims on Rect -/

/-- C1 (as stated, refuted): the rectangles (0,0,10,10) and (10,0,10,10) share only the edge
x = 10, and `Rect::intersects` does not return false on them. -/
theorem edge_contact_reported :
    ¬ (Rect.intersects ⟨0, 0, 10, 10⟩ ⟨10, 0, 10, 10⟩ = false) := by
  norm_num [Rect.intersects]

/-- C1 (amended): two rectangles of non-negative size that share a boundary edge (left,
right, top or bottom, the extents along the edge meeting) are reported as intersecting by
`Rect::intersects`; it returns false only for rectangles strictly separated along an axis. -/
theorem intersects_edge_contact (a b : Rect) :
    (0 ≤ a.w → 0 ≤ a.h → 0 ≤ b.w → 0 ≤ b.h →
        ((a.x + a.w = b.x ∧ a.y ≤ b.y + b.h ∧ b.y ≤ a.y + a.h) ∨
         (b.x + b.w = a.x ∧ a.y ≤ b.y + b.h ∧ b.y ≤ a.y + a.h) ∨
         (a.y + a.h = b.y ∧ a.x ≤ b.x + b.w ∧ b.x ≤ a.x + a.w) ∨
         (b.y + b.h = a.y ∧ a.x ≤ b.x + b.w ∧ b.x ≤ a.x + a.w)) →
        a.intersects b = true) ∧
      (a.intersects b = false →
        (a.x + a.w < b.x ∨ b.x + b.w < a.x ∨ a.y + a.h < b.y ∨ b.y + b.h < a.y)) := by
  constructor
  · intro haw hah hbw hbh hedge
    simp only [Rect.intersects, Bool.not_eq_true', Bool.or_eq_false_iff, decide_eq_false_iff_not,
      not_lt]
    rcases hedge with ⟨h1, h2, h3⟩ | ⟨h1, h2, h3⟩ | ⟨h1, h2, h3⟩ | ⟨h1, h2, h3⟩ <;>
      refine ⟨⟨⟨?_, ?_⟩, ?_⟩, ?_⟩ <;> linarith
  · simp only [Rect.intersects, Bool.not_eq_false', Bool.or_eq_true, decide_eq_true_eq]
    tauto

/-- Witness for C1 (amended): (0,0,10,10) against its right neighbour (10,0,10,10) and
against its lower neighbour (0,10,10,10). -/
theorem intersects_edge_contact_witness :
    Rect.intersects ⟨0, 0, 10, 10⟩ ⟨10, 0, 10, 10⟩ = true ∧
      Rect.intersects ⟨0, 0, 10, 10⟩ ⟨0, 10, 10, 10⟩ = true :=
  ⟨(intersects_edge_contact ⟨0, 0, 10, 10⟩ ⟨10, 0, 10, 10⟩).1 (by norm_num) (by norm_num)
      (by norm_num) (by norm_num) (Or.inl (by norm_num)),
    (intersects_edge_contact ⟨0, 0, 10, 10⟩ ⟨0, 10, 10, 10⟩).1 (by norm_num) (by norm_num)
      (by norm_num) (by norm_num) (Or.inr (Or.inr (Or.inl (by norm_num))))⟩

/-- C7: `Rect::intersects` is symmetric. -/
theorem intersects_symm (a b : Rect) : a.intersects b = b.intersects a := by
  unfold Rect.intersects
  cases decide (a.x + a.w < b.x) <;> cases decide (b.x + b.w < a.x) <;>
    cases decide (a.y + a.h < b.y) <;> cases decide (b.y + b.h < a.y) <;> rfl

/-! ## Claims on `MovingBox::update` -/

/-- C3 (as stated, refuted): x = 749.5, dx = 0.50001f, w = 50 on a canvas 800 wide.  All
fields are floats, 0 ≤ w ≤ 800 and x + dx + w > 800 as real numbers, yet the float sum
x + dx is 750, the test 750 + 50 > 800 fails and `update` leaves dx as it was. -/
theorem update32_keeps_dx_on_rounded_crossing :
    IsFloat (1499 / 2) ∧ IsFloat (1048597 / 2097152) ∧
      F32.ofRat (50001 / 100000) = F32.fin (1048597 / 2097152) ∧
      (800 : ℚ) < 1499 / 2 + 1048597 / 2097152 + 50 ∧
      ((MovingBox32.new (F32.fin (1499 / 2)) (F32.fin 100) (F32.fin 50) (F32.fin 50)
          (F32.fin (1048597 / 2097152)) (F32.fin 0) ⟨1, 0, 0, 1⟩).update
        (F32.fin 800) (F32.fin 400)).dx = F32.fin (1048597 / 2097152) ∧
      F32.fin (1048597 / 2097152) ≠ (F32.fin (1048597 / 2097152)).neg := by
  decide!

/-- C3 (amended): in binary32 arithmetic, a box with 0 ≤ w ≤ maxw for which the test of the
code fires, the float sum (x + dx) + w exceeding maxw, has its dx negated by `update` and
ends at the float difference maxw - w. -/
theorem update32_reflects_right (b : MovingBox32) (W : ℚ) (maxh : F32) (hW : IsFloat W)
    (hw0 : F32.le (F32.fin 0) b.w = true) (hw : F32.le b.w (F32.fin W) = true)
    (hx : F32.lt (F32.fin W) ((b.x.add b.dx).add b.w) = true) :
    (b.update (F32.fin W) maxh).dx = b.dx.neg ∧
      (b.update (F32.fin W) maxh).x = (F32.fin W).sub b.w := by
  constructor
  · simp [MovingBox32.update, hx]
  · exact clamp_reflect (b.x.add b.dx) b.w W hW (fun a h => add_fin_rounded _ _ _ h) hw0 hw hx

/-- Witness for C3 (amended): x = 795, w = 50, dx = 10 on a canvas 800 wide gives dx = -10
and x = 750. -/
theorem update32_reflects_right_witness :
    ((MovingBox32.new (F32.fin 795) (F32.fin 100) (F32.fin 50) (F32.fin 50) (F32.fin 10)
          (F32.fin 0) ⟨1, 0, 0, 1⟩).update (F32.fin 800) (F32.fin 400)).dx = F32.fin (-10) ∧
      ((MovingBox32.new (F32.fin 795) (F32.fin 100) (F32.fin 50) (F32.fin 50) (F32.fin 10)
          (F32.fin 0) ⟨1, 0, 0, 1⟩).update (F32.fin 800) (F32.fin 400)).x = F32.fin 750 :=
  ⟨(update32_reflects_right (MovingBox32.new (F32.fin 795) (F32.fin 100) (F32.fin 50)
        (F32.fin 50) (F32.fin 10) (F32.fin 0) ⟨1, 0, 0, 1⟩) 800 (F32.fin 400) (by decide!)
        (by decide!) (by decide!) (by decide!)).1,
    (update32_reflects_right (MovingBox32.new (F32.fin 795) (F32.fin 100) (F32.fin 50)
        (F32.fin 50) (F32.fin 10) (F32.fin 0) ⟨1, 0, 0, 1⟩) 800 (F32.fin 400) (by decide!)
        (by decide!) (by decide!) (by decide!)).2.trans (by decide!)⟩

/-- C4 (as stated, refuted): x = 8388609, dx = 0.5, w = 1.5 on a canvas 8388611 wide.  As
real numbers 0 ≤ x + dx and x + dx + w ≤ 8388611, yet the float sum x + dx is 8388610, the
float sum 8388610 + 1.5 is 8388612, and `update` negates dx and ends at x = 8388610. -/
theorem update32_reflects_on_rounded_sum :
    IsFloat 8388609 ∧ IsFloat (1 / 2) ∧ IsFloat (3 / 2) ∧ IsFloat 8388611 ∧
      (0 : ℚ) ≤ 8388609 + 1 / 2 ∧ (8388609 : ℚ) + 1 / 2 + 3 / 2 ≤ 8388611 ∧
      (0 : ℚ) ≤ 0 + 0 ∧ (0 : ℚ) + 0 + 1 ≤ 400 ∧
      ((MovingBox32.new (F32.fin 8388609) (F32.fin 0) (F32.fin (3 / 2)) (F32.fin 1)
          (F32.fin (1 / 2)) (F32.fin 0) ⟨1, 0, 0, 1⟩).update
        (F32.fin 8388611) (F32.fin 400)).x = F32.fin 8388610 ∧
      ((MovingBox32.new (F32.fin 8388609) (F32.fin 0) (F32.fin (3 / 2)) (F32.fin 1)
          (F32.fin (1 / 2)) (F32.fin 0) ⟨1, 0, 0, 1⟩).update
        (F32.fin 8388611) (F32.fin 400)).dx = F32.fin (-1 / 2) := by
  decide!

/-- C4 (amended): in binary32 arithmetic, when the advanced position the code computes,
(a, c) = (fl(x + dx), fl(y + dy)), lies fully inside the canvas (0 ≤ a, a + w ≤ maxw,
0 ≤ c, c + h ≤ maxh as real numbers), `update` sets the position to exactly (a, c) and
leaves dx and dy unchanged. -/
theorem update32_inside (b : MovingBox32) (W H a c w h : ℚ) (hW : IsFloat W) (hH : IsFloat H)
    (hx : b.x.add b.dx = F32.fin a) (hy : b.y.add b.dy = F32.fin c)
    (hw : b.w = F32.fin w) (hh : b.h = F32.fin h)
    (hx0 : 0 ≤ a) (hx1 : a + w ≤ W) (hy0 : 0 ≤ c) (hy1 : c + h ≤ H) :
    (b.update (F32.fin W) (F32.fin H)).x = F32.fin a ∧
      (b.update (F32.fin W) (F32.fin H)).y = F32.fin c ∧
      (b.update (F32.fin W) (F32.fin H)).dx = b.dx ∧
      (b.update (F32.fin W) (F32.fin H)).dy = b.dy := by
  obtain ⟨tx, cx⟩ := clamp_inside b.x b.dx b.w W a w hW hx hw hx0 hx1
  obtain ⟨ty, cy⟩ := clamp_inside b.y b.dy b.h H c h hH hy hh hy0 hy1
  refine ⟨cx, cy, ?_, ?_⟩
  · simp [MovingBox32.update, tx]
  · simp [MovingBox32.update, ty]

/-- Witness for C4 (amended): the first box of `main` on its first tick, (100, 80) moving by
(2, 1.5) on the 800 x 400 canvas. -/
theorem update32_inside_witness :
    ((MovingBox32.new (F32.fin 100) (F32.fin 80) (F32.fin 50) (F32.fin 50) (F32.fin 2)
          (F32.fin (3 / 2)) ⟨1, 0, 0, 1⟩).update (F32.fin 800) (F32.fin 400)).x = F32.fin 102 ∧
      ((MovingBox32.new (F32.fin 100) (F32.fin 80) (F32.fin 50) (F32.fin 50) (F32.fin 2)
          (F32.fin (3 / 2)) ⟨1, 0, 0, 1⟩).update (F32.fin 800) (F32.fin 400)).y =
        F32.fin (163 / 2) ∧
      ((MovingBox32.new (F32.fin 100) (F32.fin 80) (F32.fin 50) (F32.fin 50) (F32.fin 2)
          (F32.fin (3 / 2)) ⟨1, 0, 0, 1⟩).update (F32.fin 800) (F32.fin 400)).dx = F32.fin 2 ∧
      ((MovingBox32.new (F32.fin 100) (F32.fin 80) (F32.fin 50) (F32.fin 50) (F32.fin 2)
          (F32.fin (3 / 2)) ⟨1, 0, 0, 1⟩).update (F32.fin 800) (F32.fin 400)).dy =
        F32.fin (3 / 2) :=
  update32_inside (MovingBox32.new (F32.fin 100) (F32.fin 80) (F32.fin 50) (F32.fin 50)
      (F32.fin 2) (F32.fin (3 / 2)) ⟨1, 0, 0, 1⟩) 800 400 102 (163 / 2) 50 50
    (by decide!) (by decide!) (by decide!) (by decide!) rfl rfl
    (by norm_num) (by norm_num) (by norm_num) (by norm_num)

/-- C5 (as stated, refuted): x = 9000000, dx = 0, w = 1.5 on a canvas 8388611 wide, a box
that fits.  The clamp bound is the float difference 8388611 - 1.5 = 8388610, so `update`
ends at x = 8388610, where x + w = 8388611.5 exceeds the canvas width, also as the float
sum the code itself would compute. -/
theorem update32_leaves_canvas_by_rounding :
    IsFloat 9000000 ∧ IsFloat (3 / 2) ∧ IsFloat 8388611 ∧
      (0 : ℚ) ≤ 3 / 2 ∧ (3 / 2 : ℚ) ≤ 8388611 ∧ (0 : ℚ) ≤ 1 ∧ (1 : ℚ) ≤ 400 ∧
      ((MovingBox32.new (F32.fin 9000000) (F32.fin 0) (F32.fin (3 / 2)) (F32.fin 1)
          (F32.fin 0) (F32.fin 0) ⟨1, 0, 0, 1⟩).update
        (F32.fin 8388611) (F32.fin 400)).x = F32.fin 8388610 ∧
      (8388611 : ℚ) < 8388610 + 3 / 2 ∧
      F32.lt (F32.fin 8388611) ((F32.fin 8388610).add (F32.fin (3 / 2))) = true := by
  decide!

/-- C5 (amended): in binary32 arithmetic, for a box that fits in the canvas, whatever its
position and velocity (NaN and infinities included), after one `update` the position
satisfies 0 ≤ x ≤ fl(maxw - w) and 0 ≤ y ≤ fl(maxh - h), the bounds being the float
differences the code clamps to; when such a difference is exact, x + w ≤ maxw
(respectively y + h ≤ maxh) holds as real numbers. -/
theorem update32_in_canvas (b : MovingBox32) (W H : ℚ) (hW : IsFloat W) (hH : IsFloat H)
    (hw0 : F32.le (F32.fin 0) b.w = true) (hw : F32.le b.w (F32.fin W) = true)
    (hh0 : F32.le (F32.fin 0) b.h = true) (hh : F32.le b.h (F32.fin H) = true) :
    F32.le (F32.fin 0) (b.update (F32.fin W) (F32.fin H)).x = true ∧
      F32.le (b.update (F32.fin W) (F32.fin H)).x ((F32.fin W).sub b.w) = true ∧
      F32.le (F32.fin 0) (b.update (F32.fin W) (F32.fin H)).y = true ∧
      F32.le (b.update (F32.fin W) (F32.fin H)).y ((F32.fin H).sub b.h) = true ∧
      (∀ a v : ℚ, (b.update (F32.fin W) (F32.fin H)).x = F32.fin a → b.w = F32.fin v →
        IsFloat (W - v) → a + v ≤ W) ∧
      (∀ c v : ℚ, (b.update (F32.fin W) (F32.fin H)).y = F32.fin c → b.h = F32.fin v →
        IsFloat (H - v) → c + v ≤ H) := by
  obtain ⟨v, hv, hv0, hv1⟩ := size_of_le b.w W hw0 hw
  obtain ⟨u, hu, hu0, hu1⟩ := size_of_le b.h H hh0 hh
  obtain ⟨hsubx, hmx0, _⟩ := sub_fin_fin W v hW hv0 hv1
  obtain ⟨hsuby, hmy0, _⟩ := sub_fin_fin H u hH hu0 hu1
  obtain ⟨a, hxa, ha0, ha1⟩ := clamp_bounds (b.x.add b.dx) (round32 (W - v)) hmx0
  obtain ⟨c, hyc, hc0, hc1⟩ := clamp_bounds (b.y.add b.dy) (round32 (H - u)) hmy0
  have ex : (b.update (F32.fin W) (F32.fin H)).x = F32.fin a := by
    show stdMax32 (F32.fin 0) (stdMin32 (b.x.add b.dx) ((F32.fin W).sub b.w)) = _
    rw [hv, hsubx, hxa]
  have ey : (b.update (F32.fin W) (F32.fin H)).y = F32.fin c := by
    show stdMax32 (F32.fin 0) (stdMin32 (b.y.add b.dy) ((F32.fin H).sub b.h)) = _
    rw [hu, hsuby, hyc]
  rw [ex, ey, hv, hu, hsubx, hsuby]
  refine ⟨(le_fin_fin _ _).mpr ha0, (le_fin_fin _ _).mpr ha1, (le_fin_fin _ _).mpr hc0,
    (le_fin_fin _ _).mpr hc1, ?_, ?_⟩
  · intro a2 v2 h1 h2 h3
    have e1 : a = a2 := by injection h1
    have e2 : v = v2 := by injection h2
    subst e1 e2
    have := ((isFloat_iff _).mp h3).1
    rw [this] at ha1
    linarith
  · intro c2 v2 h1 h2 h3
    have e1 : c = c2 := by injection h1
    have e2 : u = v2 := by injection h2
    subst e1 e2
    have := ((isFloat_iff _).mp h3).1
    rw [this] at hc1
    linarith

/-- Witness for C5 (amended): a box far outside the 800 x 400 canvas, moving away from it,
on the reflecting tick. -/
theorem update32_in_canvas_witness :
    F32.le (F32.fin 0) ((MovingBox32.new (F32.fin 900) (F32.fin (-70)) (F32.fin 50)
        (F32.fin 40) (F32.fin 10) (F32.fin (-5)) ⟨1, 0, 0, 1⟩).update
        (F32.fin 800) (F32.fin 400)).x = true ∧
      F32.le ((MovingBox32.new (F32.fin 900) (F32.fin (-70)) (F32.fin 50)
        (F32.fin 40) (F32.fin 10) (F32.fin (-5)) ⟨1, 0, 0, 1⟩).update
        (F32.fin 800) (F32.fin 400)).x ((F32.fin 800).sub (F32.fin 50)) = true ∧
      F32.le (F32.fin 0) ((MovingBox32.new (F32.fin 900) (F32.fin (-70)) (F32.fin 50)
        (F32.fin 40) (F32.fin 10) (F32.fin (-5)) ⟨1, 0, 0, 1⟩).update
        (F32.fin 800) (F32.fin 400)).y = true ∧
      F32.le ((MovingBox32.new (F32.fin 900) (F32.fin (-70)) (F32.fin 50)
        (F32.fin 40) (F32.fin 10) (F32.fin (-5)) ⟨1, 0, 0, 1⟩).update
        (F32.fin 800) (F32.fin 400)).y ((F32.fin 400).sub (F32.fin 40)) = true :=
  have h := update32_in_canvas (MovingBox32.new (F32.fin 900) (F32.fin (-70)) (F32.fin 50)
    (F32.fin 40) (F32.fin 10) (F32.fin (-5)) ⟨1, 0, 0, 1⟩) 800 400 (by decide!) (by decide!)
    (by decide!) (by decide!) (by decide!) (by decide!)
  ⟨h.1, h.2.1, h.2.2.1, h.2.2.2.1⟩

/-! ## Claims on the render loop -/

/-- C2 (evaluation of the code): in the second tick of the scene built by `main`, the dirty
set at the clear pass holds the rectangles of construction time and the rectangles after the
second update; none of the three rectangles painted by the first tick is in it. -/
theorem second_tick_dirty_misses_painted :
    (loopFrame mainScene).painted.map MovingBox.getRect =
        [⟨102, 163 / 2, 50, 50⟩, ⟨497 / 2, 661 / 5, 60, 60⟩, ⟨5023 / 10, 988 / 5, 40, 40⟩] ∧
      (loopMark (loop mainScene)).dirtyRects =
        [⟨100, 80, 50, 50⟩, ⟨250, 130, 60, 60⟩, ⟨500, 200, 40, 40⟩,
         ⟨104, 83, 50, 50⟩, ⟨247, 672 / 5, 60, 60⟩, ⟨2523 / 5, 976 / 5, 40, 40⟩] ∧
      ∀ r ∈ (loopFrame mainScene).painted.map MovingBox.getRect,
        r ∉ (loopMark (loop mainScene)).dirtyRects := by
  decide!

/-- C6: started with an empty dirty set, every tick reaches the clear pass with exactly the
`oldRect` of every object followed by the rectangle of every object as the tick leaves it
(one old and one new rectangle per object, twice as many rectangles as objects), and
the tick ends with as many objects as before and an empty dirty set. -/
theorem loop_dirty_count (s : NanoVGExample) (h : s.dirtyRects = []) (n : Nat) :
    (loopMark (ticks n s)).dirtyRects =
        (ticks n s).boxes.map MovingBox.oldRect ++
          (ticks (n + 1) s).boxes.map MovingBox.getRect ∧
      (loopMark (ticks n s)).dirtyRects.length = 2 * s.boxes.length ∧
      (ticks (n + 1) s).boxes.length = s.boxes.length ∧
      (ticks (n + 1) s).dirtyRects = [] := by
  have hb : (ticks (n + 1) s).boxes =
      (ticks n s).boxes.map (fun b => b.update (ticks n s).winWidth (ticks n s).winHeight) := by
    rw [ticks_succ_eq]
    show (loopMark (ticks n s)).boxes = _
    rw [loopMark_boxes]
  have hd : (loopMark (ticks n s)).dirtyRects =
      (ticks n s).boxes.map MovingBox.oldRect ++
        (ticks (n + 1) s).boxes.map MovingBox.getRect := by
    rw [loopMark_dirtyRects, ticks_dirtyRects n s h, hb]
    simp
  refine ⟨hd, ?_, ticks_boxes_length _ _, ?_⟩
  · rw [hd]
    simp only [List.length_append, List.length_map, ticks_boxes_length]
    omega
  · rw [ticks_succ_eq]
    rfl

/-- Witness for C6: the fourth tick of the scene built by `main` (three objects, 800 x 400). -/
theorem loop_dirty_count_witness :
    (loopMark (ticks 3 mainScene)).dirtyRects =
        (ticks 3 mainScene).boxes.map MovingBox.oldRect ++
          (ticks 4 mainScene).boxes.map MovingBox.getRect ∧
      (loopMark (ticks 3 mainScene)).dirtyRects.length = 2 * mainScene.boxes.length ∧
      (ticks 4 mainScene).boxes.length = mainScene.boxes.length ∧
      (ticks 4 mainScene).dirtyRects = [] :=
  loop_dirty_count mainScene rfl 3

/-- C10: when every box has non-negative width and height, every tick paints every box: the
paint pass hands to `draw` exactly the updated boxes, none is skipped. -/
theorem loop_paints_every_box (s : NanoVGExample) (h : ∀ b ∈ s.boxes, 0 ≤ b.w ∧ 0 ≤ b.h)
    (n : Nat) : (loopFrame (ticks n s)).painted = (loopMark (ticks n s)).boxes := by
  have hn := ticks_sizes_nonneg n s h
  show paintPass (loopMark (ticks n s)).dirtyRects (loopMark (ticks n s)).boxes = _
  apply paintPass_all
  intro b hb
  rw [loopMark_boxes] at hb
  obtain ⟨c, hc, rfl⟩ := List.mem_map.mp hb
  refine needsDraw_of_mem _ (c.update (ticks n s).winWidth (ticks n s).winHeight).getRect _ ?_ ?_
  · rw [loopMark_dirtyRects]
    exact List.mem_append_right _ (List.mem_map.mpr ⟨c, hc, rfl⟩)
  · exact Rect.intersects_self _ (hn c hc).1 (hn c hc).2

/-- Witness for C10: the third tick of the scene built by `main` paints its three boxes. -/
theorem loop_paints_every_box_witness :
    (loopFrame (ticks 2 mainScene)).painted = (loopMark (ticks 2 mainScene)).boxes :=
  loop_paints_every_box mainScene (by decide!) 2

/-! ## Claims on the framebuffer utilities -/

theorem heapRead_heapStore (heap : List (Nat × NVGLUframebuffer)) (p : Nat)
    (f : NVGLUframebuffer) : heapRead (heapStore heap p f) p = some f := by
  simp [heapRead, heapStore]

theorem heapRead_heapFree (heap : List (Nat × NVGLUframebuffer)) (p : Nat) :
    heapRead (heapFree heap p) p = none := by
  simp [heapRead, heapFree, List.find?_eq_none]

theorem nvgluDeleteFramebuffer_live (s : GLState) (p : Nat) (f : NVGLUframebuffer) (hp : p ≠ 0)
    (hl : heapRead s.heap p = some f) :
    ∃ s1, nvgluDeleteFramebuffer p s = some s1 ∧ heapRead s1.heap p = none ∧
      s1.framebufferBinding = s.framebufferBinding ∧
      s1.renderbufferBinding = s.renderbufferBinding ∧
      s1.framebuffers = (if f.fbo ≠ 0 then s.framebuffers.erase f.fbo else s.framebuffers) ∧
      s1.renderbuffers = (if f.rbo ≠ 0 then s.renderbuffers.erase f.rbo else s.renderbuffers) ∧
      s1.images = (if f.image ≥ 0 then s.images.erase f.image else s.images) := by
  refine ⟨_, by simp only [nvgluDeleteFramebuffer, hp, if_false, hl]; rfl, ?_⟩
  refine ⟨heapRead_heapFree _ _, ?_, ?_, ?_, ?_, ?_⟩
  · by_cases h1 : f.fbo = 0 <;> by_cases h2 : f.rbo = 0 <;> by_cases h3 : f.image ≥ 0 <;>
      simp [h1, h2, h3, glDeleteFramebuffers, glDeleteRenderbuffers, nvgDeleteImage]
  · by_cases h1 : f.fbo = 0 <;> by_cases h2 : f.rbo = 0 <;> by_cases h3 : f.image ≥ 0 <;>
      simp [h1, h2, h3, glDeleteFramebuffers, glDeleteRenderbuffers, nvgDeleteImage]
  · by_cases h1 : f.fbo = 0 <;> by_cases h2 : f.rbo = 0 <;> by_cases h3 : f.image ≥ 0 <;>
      simp [h1, h2, h3, glDeleteFramebuffers, glDeleteRenderbuffers, nvgDeleteImage]
  · by_cases h1 : f.fbo = 0 <;> by_cases h2 : f.rbo = 0 <;> by_cases h3 : f.image ≥ 0 <;>
      simp [h1, h2, h3, glDeleteFramebuffers, glDeleteRenderbuffers, nvgDeleteImage]
  · by_cases h1 : f.fbo = 0 <;> by_cases h2 : f.rbo = 0 <;> by_cases h3 : f.image ≥ 0 <;>
      simp [h1, h2, h3, glDeleteFramebuffers, glDeleteRenderbuffers, nvgDeleteImage]

theorem nvgluDeleteFramebuffer_dangling (s : GLState) (p : Nat) (hp : p ≠ 0)
    (hl : heapRead s.heap p = none) : nvgluDeleteFramebuffer p s = none := by
  simp [nvgluDeleteFramebuffer, hp, hl]

theorem createObjects_heapRead (d : Driver) (ctx fb : Nat) (s : GLState) :
    heapRead (createObjects d ctx fb s).heap fb = some ⟨ctx, d.fbo, d.rbo, d.texture, d.image⟩ := by
  unfold createObjects
  exact heapRead_heapStore _ _ _

theorem createObjects_framebuffers (d : Driver) (ctx fb : Nat) (s : GLState) :
    (createObjects d ctx fb s).framebuffers =
      (if d.fbo ≠ 0 then d.fbo :: s.framebuffers else s.framebuffers) := by
  by_cases h1 : d.fbo = 0 <;> by_cases h2 : d.rbo = 0 <;> by_cases h3 : 0 < d.image <;>
    simp [createObjects, glGenFramebuffers, glGenRenderbuffers, nvgCreateImageRGBA,
      glBindFramebuffer, glBindRenderbuffer, h1, h2, h3]

theorem createObjects_renderbuffers (d : Driver) (ctx fb : Nat) (s : GLState) :
    (createObjects d ctx fb s).renderbuffers =
      (if d.rbo ≠ 0 then d.rbo :: s.renderbuffers else s.renderbuffers) := by
  by_cases h1 : d.fbo = 0 <;> by_cases h2 : d.rbo = 0 <;> by_cases h3 : 0 < d.image <;>
    simp [createObjects, glGenFramebuffers, glGenRenderbuffers, nvgCreateImageRGBA,
      glBindFramebuffer, glBindRenderbuffer, h1, h2, h3]

theorem createObjects_images (d : Driver) (ctx fb : Nat) (s : GLState) :
    (createObjects d ctx fb s).images =
      (if 0 < d.image then d.image :: s.images else s.images) := by
  by_cases h1 : d.fbo = 0 <;> by_cases h2 : d.rbo = 0 <;> by_cases h3 : 0 < d.image <;>
    simp [createObjects, glGenFramebuffers, glGenRenderbuffers, nvgCreateImageRGBA,
      glBindFramebuffer, glBindRenderbuffer, h1, h2, h3]

/-- C8: when the completeness check fails for the stencil-only format and, where the
fallback is compiled in, for the depth+stencil format too, `nvgluCreateFramebuffer` returns
NULL, and the live framebuffers, renderbuffers and images as well as both bindings are what
they were before the call; the struct itself has been freed. -/
theorem createFramebuffer_failure_releases (depth24 : Bool) (d : Driver) (ctx : Nat)
    (w h imageFlags : Int) (s : GLState) (hm : d.mallocResult ≠ 0)
    (h1 : d.stencilComplete = false) (h2 : depth24 = true → d.depthStencilComplete = false)
    (h0 : (0 : Int) ∉ s.images) :
    ∃ s1, nvgluCreateFramebuffer depth24 d ctx w h imageFlags s = some (0, s1) ∧
      s1.framebuffers = s.framebuffers ∧ s1.renderbuffers = s.renderbuffers ∧
      s1.images = s.images ∧ s1.framebufferBinding = s.framebufferBinding ∧
      s1.renderbufferBinding = s.renderbufferBinding ∧
      heapRead s1.heap d.mallocResult = none := by
  have hfail : (if d.stencilComplete then false
      else if depth24 then (if d.depthStencilComplete then false else true) else true) = true := by
    cases hd : depth24
    · simp [h1]
    · simp [h1, h2 hd]
  obtain ⟨s1, hs1, hheap, hb1, hb2, hf, hr, hi⟩ := nvgluDeleteFramebuffer_live
    (glBindRenderbuffer s.renderbufferBinding (glBindFramebuffer s.framebufferBinding
      (createObjects d ctx d.mallocResult s)))
    d.mallocResult ⟨ctx, d.fbo, d.rbo, d.texture, d.image⟩ hm
    (createObjects_heapRead d ctx d.mallocResult s)
  refine ⟨s1, ?_, ?_, ?_, ?_, hb1, hb2, hheap⟩
  · simp only [nvgluCreateFramebuffer, hm, if_false, hfail, if_true, createError, hs1,
      Option.map_some']
  · rw [hf]
    show (if d.fbo ≠ 0 then (createObjects d ctx d.mallocResult s).framebuffers.erase d.fbo
      else (createObjects d ctx d.mallocResult s).framebuffers) = _
    rw [createObjects_framebuffers]
    by_cases hz : d.fbo = 0 <;> simp [hz]
  · rw [hr]
    show (if d.rbo ≠ 0 then (createObjects d ctx d.mallocResult s).renderbuffers.erase d.rbo
      else (createObjects d ctx d.mallocResult s).renderbuffers) = _
    rw [createObjects_renderbuffers]
    by_cases hz : d.rbo = 0 <;> simp [hz]
  · rw [hi]
    show (if d.image ≥ 0 then (createObjects d ctx d.mallocResult s).images.erase d.image
      else (createObjects d ctx d.mallocResult s).images) = _
    rw [createObjects_images]
    by_cases hpos : 0 < d.image
    · simp [hpos, hpos.le]
    · by_cases hneg : d.image ≥ 0
      · have hz : d.image = 0 := le_antisymm (not_lt.mp hpos) hneg
        simp [hz, List.erase_of_not_mem h0]
      · simp [hpos, hneg]

/-- Witness for C8: fresh names handed out, both formats rejected, fallback compiled in. -/
theorem createFramebuffer_failure_releases_witness :
    ∃ s1, nvgluCreateFramebuffer true incompleteDriver 1 64 64 0 sampleGL = some (0, s1) ∧
      s1.framebuffers = sampleGL.framebuffers ∧ s1.renderbuffers = sampleGL.renderbuffers ∧
      s1.images = sampleGL.images ∧ s1.framebufferBinding = sampleGL.framebufferBinding ∧
      s1.renderbufferBinding = sampleGL.renderbufferBinding ∧
      heapRead s1.heap incompleteDriver.mallocResult = none :=
  createFramebuffer_failure_releases true incompleteDriver 1 64 64 0 sampleGL (by decide)
    (by decide) (by decide) (by decide)

end NanoVG
